import Mathlib

set_option autoImplicit false

/-!
Verification of the request/response mapping and dispatch engine of the
AgentAPI repository, shallowly embedded from `src/agent_api/server.py` and
the route model of `src/agent_api/config.py`.

Python dictionaries are modelled as association lists that preserve
insertion order (as CPython dicts do); keys of a real dict are unique, so
lemmas that depend on it take a `Nodup` hypothesis on the key list.
-/

namespace AgentApi

/-- Insertion-ordered string-keyed dictionary, as CPython's `dict`. -/
abbrev PyDict (α : Type) := List (String × α)

/-- `d[k]` / `d.get(k)`: value of the first (in a real dict, only) binding. -/
def pyGet? {α : Type} : PyDict α → String → Option α
  | [], _ => none
  | (k, v) :: rest, key => if k = key then some v else pyGet? rest key

/-- `k in d` membership test. -/
def pyContains {α : Type} (d : PyDict α) (k : String) : Bool :=
  (pyGet? d k).isSome

/-- `d[k] = v`: replace in place when the key is bound, else append at the
end, as CPython's insertion-order semantics does. -/
def pySet {α : Type} : PyDict α → String → α → PyDict α
  | [], key, v => [(key, v)]
  | (k, w) :: rest, key, v =>
    if k = key then (k, v) :: rest else (k, w) :: pySet rest key v

/-- `d.update(other)`: set every binding of `other` in order. -/
def pyUpdate {α : Type} (d other : PyDict α) : PyDict α :=
  other.foldl (fun acc kv => pySet acc kv.1 kv.2) d

/-- `list(d.keys())` in insertion order. -/
def pyKeys {α : Type} (d : PyDict α) : List String := d.map Prod.fst

/-- JSON-serialisable Python values (the payloads this API passes around). -/
inductive Value : Type where
  | vNull
  | vBool (b : Bool)
  | vInt (n : Int)
  | vStr (s : String)
  | vList (items : List Value)
  | vDict (fields : List (String × Value))
deriving Repr

/-- Lower-case hex digit, for `\uXXXX` escapes. -/
def hexDigit (n : Nat) : Char :=
  if n < 10 then Char.ofNat (48 + n) else Char.ofNat (87 + n % 16)

/-- Four-digit hex rendering of a code unit, as in `json.dumps`. -/
def hex4 (n : Nat) : String :=
  String.mk [hexDigit (n / 4096 % 16), hexDigit (n / 256 % 16),
    hexDigit (n / 16 % 16), hexDigit (n % 16)]

/-- One character of `json.dumps` string escaping with `ensure_ascii=True`:
printable ASCII other than quote and backslash passes through, the short
escapes cover the usual control characters, everything else becomes
`\uXXXX` (a surrogate pair beyond the BMP). -/
def jsonEscapeChar (c : Char) : String :=
  if c = '"' then "\\\""
  else if c = '\\' then "\\\\"
  else if c = '\n' then "\\n"
  else if c = '\r' then "\\r"
  else if c = '\t' then "\\t"
  else if c.toNat = 8 then "\\b"
  else if c.toNat = 12 then "\\f"
  else if c.toNat < 32 || 126 < c.toNat then
    if c.toNat < 65536 then "\\u" ++ hex4 c.toNat
    else
      "\\u" ++ hex4 (55296 + (c.toNat - 65536) / 1024) ++
        "\\u" ++ hex4 (56320 + (c.toNat - 65536) % 1024)
  else String.singleton c

/-- `json.dumps` escaping of a whole string body. -/
def jsonEscapeString (s : String) : String :=
  String.join (s.data.map jsonEscapeChar)

mutual

/-- `json.dumps(v)` with the default separators `", "` and `": "`. -/
def jsonDumps : Value → String
  | .vNull => "null"
  | .vBool true => "true"
  | .vBool false => "false"
  | .vInt n => toString n
  | .vStr s => "\"" ++ jsonEscapeString s ++ "\""
  | .vList items => "[" ++ String.intercalate ", " (jsonDumpsList items) ++ "]"
  | .vDict fields =>
      "\x7b" ++ String.intercalate ", " (jsonDumpsFields fields) ++ "\x7d"

/-- Serialised elements of a JSON array, in order. -/
def jsonDumpsList : List Value → List String
  | [] => []
  | v :: rest => jsonDumps v :: jsonDumpsList rest

/-- Serialised `"key": value` members of a JSON object, in order. -/
def jsonDumpsFields : List (String × Value) → List String
  | [] => []
  | (k, v) :: rest =>
      ("\"" ++ jsonEscapeString k ++ "\": " ++ jsonDumps v) :: jsonDumpsFields rest

end

/-- The fields of `RouteConfig` (config.py) that the request/response engine
reads. `parameter_mapping` maps agent parameter names to payload field
names; `constant_parameters` are always merged into the call. -/
structure RouteConfig where
  name : String
  path : String
  method : String
  agent_method : String
  parameter_mapping : PyDict String
  constant_parameters : PyDict Value
  stream : Bool
  stream_media_type : String
  response_envelope : Option String
deriving Repr

/-- An HTTPException as raised by the engine: status code and detail. -/
structure HTTPError where
  status : Nat
  detail : String
deriving Repr, DecidableEq

/-- The decoded request body as the handler receives it: absent
(`Body(None)` default), a schema-model object whose `model_dump()` yields
the given fields, or a plain decoded JSON value. -/
inductive Payload : Type where
  | pyNone
  | model (d : PyDict Value)
  | value (v : Value)

/-- Lines 36-43 of server.py: normalise the payload to a field dict, or
raise 400 when it is neither absent, a model object, nor a dict. -/
def payloadData : Payload → Except HTTPError (PyDict Value)
  | .pyNone => .ok []
  | .model d => .ok d
  | .value (.vDict d) => .ok d
  | .value _ => .error ⟨400, "Unsupported payload type"⟩

/-- The loop of lines 48-52 of server.py: walk the parameter mapping in
order, binding present fields into `kwargs` and collecting absent field
names into `missing`. -/
def mappingLoop (data : PyDict Value) :
    PyDict String → PyDict Value → List String → List String × PyDict Value
  | [], kwargs, missing => (missing, kwargs)
  | (param, field) :: rest, kwargs, missing =>
    match pyGet? data field with
    | none => mappingLoop data rest kwargs (missing ++ [field])
    | some v => mappingLoop data rest (pySet kwargs param v) missing

/-- The 422 detail string of lines 54-57 of server.py. -/
def missingDetail (missing : List String) : String :=
  "Missing required payload fields: " ++ String.intercalate ", " missing

/-- `_build_call_kwargs` (server.py lines 34-60): start from a copy of the
constant parameters; with a non-empty mapping bind mapped fields and fail
422 when any are missing; with an empty mapping merge the whole payload. -/
def build_call_kwargs (route : RouteConfig) (payload : Payload) :
    Except HTTPError (PyDict Value) :=
  match payloadData payload with
  | .error e => .error e
  | .ok data =>
    let kwargs := route.constant_parameters
    if route.parameter_mapping.isEmpty then
      .ok (pyUpdate kwargs data)
    else
      let mres := mappingLoop data route.parameter_mapping kwargs []
      if mres.1.isEmpty then .ok mres.2
      else .error ⟨422, missingDetail mres.1⟩

/-- One chunk of a streamed result, as `_serialise_stream_item` receives
it: a schema-model object (whose `model_dump()` yields the fields), a plain
JSON-like value (dicts pass through, anything else is wrapped), or a bytes
object, which `json.dumps` cannot serialise. -/
inductive StreamItem : Type where
  | model (d : PyDict Value)
  | plain (v : Value)
  | bytesItem (bs : List Nat)
deriving Repr

/-- `_serialise_stream_item` (server.py lines 24-31): build the frame
`data: <json>\n\n`. `none` models the `TypeError` that `json.dumps` raises
on a payload holding a bytes object. -/
def serialise_stream_item : StreamItem → Option String
  | .model d => some ("data: " ++ jsonDumps (.vDict d) ++ "\n\n")
  | .plain (.vDict d) => some ("data: " ++ jsonDumps (.vDict d) ++ "\n\n")
  | .plain v => some ("data: " ++ jsonDumps (.vDict [("data", v)]) ++ "\n\n")
  | .bytesItem _ => none

/-- The literal terminal frame yielded at server.py line 117. -/
def endSentinel : String := "data: \x7b\"event\": \"end\"\x7d\n\n"

/-- The frames produced by `iterator` (server.py lines 110-117) over a
finite source: every chunk's frame in source order, then the terminal
sentinel. `none` models an abort when a chunk fails to serialise. -/
def iteratorFrames (items : List StreamItem) : Option (List String) :=
  match items.mapM serialise_stream_item with
  | some frames => some (frames ++ [endSentinel])
  | none => none

/-- What a stream-flagged route's method returned, as the handler
inspects it: a string, a bytes object, a synchronous or asynchronous
iterable realising the given finite chunk list, or something that is none
of these (e.g. an int or None). -/
inductive StreamResult : Type where
  | strRes (s : String)
  | bytesRes (bs : List Nat)
  | iterRes (isAsync : Bool) (items : List StreamItem)
  | otherRes
deriving Repr

/-- Lines 100-108 of server.py: a str result is the one-item sequence
`[result]` (so is bytes), an (async) iterable is streamed as-is, and any
other shape raises 500 before any frame is produced. -/
def classifyStream : StreamResult → Except HTTPError (List StreamItem)
  | .strRes s => .ok [.plain (.vStr s)]
  | .bytesRes bs => .ok [.bytesItem bs]
  | .iterRes _ items => .ok items
  | .otherRes =>
      .error ⟨500, "Stream routes must return an iterable or async iterable"⟩

/-- The stream branch of `handler`: classify the result, then emit the
framed stream. -/
def handler_stream (result : StreamResult) :
    Except HTTPError (Option (List String)) :=
  match classifyStream result with
  | .error e => .error e
  | .ok items => .ok (iteratorFrames items)

/-- `_wrap_non_model_response` (server.py lines 81-84): wrap the raw result
under the envelope key when one is declared. -/
def wrap_non_model_response (route : RouteConfig) (result : Value) : Value :=
  match route.response_envelope with
  | some k => .vDict [(k, result)]
  | none => result

/-- `_apply_response_model` (server.py lines 63-78). The pydantic
round-trip `model_validate(...).model_dump()` of a declared response model
is the external Schema Validator; it is abstracted as the `validate`
function carried by `modelCls`. -/
def apply_response_model (route : RouteConfig)
    (modelCls : Option (Value → PyDict Value)) (result : Value) : Value :=
  match modelCls with
  | none => wrap_non_model_response route result
  | some validate =>
    let payload := validate result
    match route.response_envelope with
    | some k => .vDict [(k, .vDict payload)]
    | none => .vDict payload

/-- The non-stream path of `handler` (server.py lines 96-98 and 121-122):
build the call kwargs, invoke the agent method on them, shape the result.
An error from the mapper short-circuits before the agent runs. -/
def handler_scalar (route : RouteConfig) (payload : Payload)
    (agent : PyDict Value → Value)
    (modelCls : Option (Value → PyDict Value)) : Except HTTPError Value :=
  match build_call_kwargs route payload with
  | .error e => .error e
  | .ok kwargs => .ok (apply_response_model route modelCls (agent kwargs))

/-- A Python attribute value as seen at registration time: a callable, or
some non-callable object. -/
inductive PyAttr : Type where
  | callable (f : PyDict Value → Value)
  | nonCallable (v : Value)

/-- An agent, viewed through `getattr(agent, name, None)`: `none` means the
lookup returned None (the attribute is absent, or bound to None). -/
abbrev Agent := String → Option PyAttr

/-- The registration-time check of `_add_route` (server.py lines 87-94):
look the configured method up on the agent and raise `AttributeError` only
when `getattr` returned None. -/
def add_route_check (agent : Agent) (route : RouteConfig) :
    Except String PyAttr :=
  match agent route.agent_method with
  | none =>
      .error ("Configured agent method '" ++ route.agent_method ++
        "' not found on agent")
  | some a => .ok a

/-- A store of live dict objects; an address is an index. Used to state
that `_build_call_kwargs` never writes through the route's references. -/
abbrev Store := List (PyDict Value)

/-- Dereference an address (out-of-range reads a dummy empty dict; the
theorems only use in-range addresses). -/
def storeGet (σ : Store) (r : Nat) : PyDict Value := σ.getD r []

/-- A route whose `constant_parameters` and `parameter_mapping` are the
given dicts; the remaining fields are irrelevant to the mapper. -/
def mkRoute (mapping : PyDict String) (constants : PyDict Value) : RouteConfig :=
  { name := "route", path := "/route", method := "POST",
    agent_method := "invoke", parameter_mapping := mapping,
    constant_parameters := constants, stream := false,
    stream_media_type := "text/event-stream", response_envelope := none }

/-- `_build_call_kwargs` with its dict operations made explicit on a store:
`kwargs = dict(route.constant_parameters)` allocates a fresh copy at a new
address, and every later write (`kwargs[param] = ...`, `kwargs.update`)
targets only that address. The route's dicts live at `constRef` (and the
mapping is passed by value because it is only ever read); the decoded
payload dict lives at `dataRef`. Returns the new store and the kwargs
address or the raised HTTPException. -/
def build_call_kwargs_store (σ : Store) (mapping : PyDict String)
    (constRef dataRef : Nat) : Store × Except HTTPError Nat :=
  let constants := storeGet σ constRef
  let σ1 := σ ++ [constants]
  let kwRef := σ.length
  let data := storeGet σ1 dataRef
  if mapping.isEmpty then
    (σ1.set kwRef (pyUpdate (storeGet σ1 kwRef) data), .ok kwRef)
  else
    let mres := mappingLoop data mapping (storeGet σ1 kwRef) []
    if mres.1.isEmpty then (σ1.set kwRef mres.2, .ok kwRef)
    else (σ1.set kwRef mres.2, .error ⟨422, missingDetail mres.1⟩)

/-- The payload-field names that the mapping requests but the payload
lacks, in mapping order, duplicates kept — exactly what the loop of
lines 47-52 accumulates in `missing`. -/
def missingFields (data : PyDict Value) (mapping : PyDict String) : List String :=
  (mapping.filter (fun pf => !(pyContains data pf.2))).map Prod.snd

/-- The (target-parameter, payload-value) pairs the mapping binds, in
mapping order, skipping absent fields. -/
def mappedPairs (data : PyDict Value) (mapping : PyDict String) : PyDict Value :=
  mapping.filterMap (fun pf => (pyGet? data pf.2).map (fun v => (pf.1, v)))

theorem pyGet?_set_self {α : Type} (d : PyDict α) (k : String) (v : α) :
    pyGet? (pySet d k v) k = some v := by
  induction d with
  | nil => simp [pySet, pyGet?]
  | cons kv rest ih =>
    obtain ⟨k0, w⟩ := kv
    by_cases h : k0 = k
    · simp [pySet, pyGet?, h]
    · simp [pySet, pyGet?, h, ih]

theorem pyGet?_set_ne {α : Type} (d : PyDict α) (k k' : String) (v : α)
    (h : k' ≠ k) : pyGet? (pySet d k v) k' = pyGet? d k' := by
  induction d with
  | nil => simp [pySet, pyGet?, Ne.symm h]
  | cons kv rest ih =>
    obtain ⟨k0, w⟩ := kv
    by_cases h0 : k0 = k
    · subst h0
      simp [pySet, pyGet?, Ne.symm h]
    · simp [pySet, pyGet?, h0, ih]

theorem pyGet?_eq_none_of_not_mem {α : Type} (d : PyDict α) (k : String)
    (h : k ∉ pyKeys d) : pyGet? d k = none := by
  induction d with
  | nil => rfl
  | cons kv rest ih =>
    obtain ⟨k0, w⟩ := kv
    have h' : ¬(k = k0) ∧ k ∉ pyKeys rest := by
      constructor
      · intro he
        exact h (he ▸ List.mem_cons_self k0 (pyKeys rest))
      · intro he
        exact h (List.mem_cons_of_mem k0 he)
    simp [pyGet?, Ne.symm h'.1, ih h'.2]

theorem pyGet?_append {α : Type} (a b : PyDict α) (k : String) :
    pyGet? (a ++ b) k =
      match pyGet? a k with
      | some v => some v
      | none => pyGet? b k := by
  induction a with
  | nil => simp [pyGet?]
  | cons kv rest ih =>
    obtain ⟨k0, w⟩ := kv
    by_cases h : k0 = k <;> simp [pyGet?, h, ih]

theorem pySet_eq_append {α : Type} (d : PyDict α) (k : String) (v : α)
    (h : pyContains d k = false) : pySet d k v = d ++ [(k, v)] := by
  induction d with
  | nil => rfl
  | cons kv rest ih =>
    obtain ⟨k0, w⟩ := kv
    by_cases h0 : k0 = k
    · simp [pyContains, pyGet?, h0] at h
    · simp only [pyContains, pyGet?, if_neg h0] at h
      simp [pySet, h0, ih h]

theorem pyUpdate_cons {α : Type} (d : PyDict α) (k : String) (v : α)
    (rest : PyDict α) :
    pyUpdate d ((k, v) :: rest) = pyUpdate (pySet d k v) rest := rfl

theorem pyGet?_update {α : Type} (other : PyDict α) (d : PyDict α)
    (k : String) (h : (pyKeys other).Nodup) :
    pyGet? (pyUpdate d other) k =
      match pyGet? other k with
      | some v => some v
      | none => pyGet? d k := by
  induction other generalizing d with
  | nil => simp [pyUpdate, pyGet?]
  | cons kv rest ih =>
    obtain ⟨k0, v0⟩ := kv
    simp only [pyKeys, List.map_cons, List.nodup_cons] at h
    rw [pyUpdate_cons, ih _ (h.2)]
    by_cases hk : k0 = k
    · subst hk
      rw [pyGet?_eq_none_of_not_mem rest k0 (by simpa [pyKeys] using h.1)]
      simp [pyGet?, pyGet?_set_self]
    · simp only [pyGet?, if_neg hk]
      cases hr : pyGet? rest k
      · simp [pyGet?_set_ne d k0 k v0 (fun hc => hk hc.symm)]
      · simp

theorem pyUpdate_eq_append {α : Type} (other : PyDict α) (d : PyDict α)
    (hnd : (pyKeys other).Nodup)
    (hdis : ∀ k ∈ pyKeys other, pyContains d k = false) :
    pyUpdate d other = d ++ other := by
  induction other generalizing d with
  | nil => simp [pyUpdate]
  | cons kv rest ih =>
    obtain ⟨k0, v0⟩ := kv
    simp only [pyKeys, List.map_cons, List.nodup_cons] at hnd
    rw [pyUpdate_cons,
      pySet_eq_append d k0 v0 (hdis k0 (by simp [pyKeys])), ih _ hnd.2]
    · simp
    · intro k hk
      have hne : k ≠ k0 := by
        intro hkk
        exact hnd.1 (hkk ▸ hk)
      have hd := hdis k (List.mem_cons_of_mem k0 hk)
      have hdn : pyGet? d k = none := by
        cases hh : pyGet? d k with
        | none => rfl
        | some v => simp [pyContains, hh] at hd
      simp only [pyContains]
      rw [pyGet?_append, hdn]
      simp [pyGet?, Ne.symm hne]

theorem pyUpdate_nil_left (data : PyDict Value)
    (hnd : (pyKeys data).Nodup) : pyUpdate [] data = data := by
  simpa using pyUpdate_eq_append data [] hnd (by intro k _; rfl)

theorem mappingLoop_missing (data : PyDict Value) :
    ∀ (m : PyDict String) (kwargs : PyDict Value) (missing : List String),
      (mappingLoop data m kwargs missing).1 = missing ++ missingFields data m := by
  intro m
  induction m with
  | nil => intro kwargs missing; simp [mappingLoop, missingFields]
  | cons pf rest ih =>
    intro kwargs missing
    obtain ⟨param, field⟩ := pf
    cases hf : pyGet? data field with
    | none =>
      simp [mappingLoop, hf, ih, missingFields, pyContains]
    | some v =>
      simp [mappingLoop, hf, ih, missingFields, pyContains]

theorem missingFields_eq_nil (data : PyDict Value) (m : PyDict String)
    (hall : ∀ pf ∈ m, pyContains data pf.2 = true) :
    missingFields data m = [] := by
  simp only [missingFields, List.map_eq_nil_iff, List.filter_eq_nil_iff]
  intro pf hpf
  simp [hall pf hpf]

theorem mappedPairs_cons_present (data : PyDict Value) (param field : String)
    (v : Value) (rest : PyDict String) (hf : pyGet? data field = some v) :
    mappedPairs data ((param, field) :: rest) =
      (param, v) :: mappedPairs data rest := by
  simp [mappedPairs, hf]

theorem mappingLoop_kwargs_of_all_present (data : PyDict Value) :
    ∀ (m : PyDict String) (kwargs : PyDict Value),
      (∀ pf ∈ m, pyContains data pf.2 = true) →
      (mappingLoop data m kwargs []).2 = pyUpdate kwargs (mappedPairs data m) := by
  intro m
  induction m with
  | nil => intro kwargs _; simp [mappingLoop, mappedPairs, pyUpdate]
  | cons pf rest ih =>
    intro kwargs hall
    obtain ⟨param, field⟩ := pf
    have hc : pyContains data field = true := hall (param, field) (by simp)
    obtain ⟨v, hv⟩ := Option.isSome_iff_exists.mp hc
    rw [mappedPairs_cons_present data param field v rest hv]
    simp only [mappingLoop, hv, pyUpdate_cons]
    exact ih (pySet kwargs param v) (fun pf hpf => hall pf (List.mem_cons_of_mem _ hpf))

theorem pyGet?_mappedPairs (data : PyDict Value) (m : PyDict String)
    (k : String) (hall : ∀ pf ∈ m, pyContains data pf.2 = true) :
    pyGet? (mappedPairs data m) k =
      match pyGet? m k with
      | some f => pyGet? data f
      | none => none := by
  induction m with
  | nil => simp [mappedPairs, pyGet?]
  | cons pf rest ih =>
    obtain ⟨param, field⟩ := pf
    have hc : pyContains data field = true := hall (param, field) (by simp)
    obtain ⟨v, hv⟩ := Option.isSome_iff_exists.mp hc
    rw [mappedPairs_cons_present data param field v rest hv]
    by_cases hk : param = k
    · subst hk
      simp [pyGet?, hv]
    · simp only [pyGet?, if_neg hk]
      exact ih (fun pf hpf => hall pf (List.mem_cons_of_mem _ hpf))

theorem pyKeys_mappedPairs (data : PyDict Value) (m : PyDict String)
    (hall : ∀ pf ∈ m, pyContains data pf.2 = true) :
    pyKeys (mappedPairs data m) = pyKeys m := by
  induction m with
  | nil => rfl
  | cons pf rest ih =>
    obtain ⟨param, field⟩ := pf
    have hc : pyContains data field = true := hall (param, field) (by simp)
    obtain ⟨v, hv⟩ := Option.isSome_iff_exists.mp hc
    rw [mappedPairs_cons_present data param field v rest hv]
    simp only [pyKeys, List.map_cons]
    exact congrArg _ (ih (fun pf hpf => hall pf (List.mem_cons_of_mem _ hpf)))

theorem pyGet?_mem {α : Type} (d : PyDict α) (k : String) (v : α)
    (h : pyGet? d k = some v) : (k, v) ∈ d := by
  induction d with
  | nil => simp [pyGet?] at h
  | cons kv rest ih =>
    obtain ⟨k0, w⟩ := kv
    by_cases h0 : k0 = k
    · subst h0
      have hw : w = v := by simpa [pyGet?] using h
      subst hw
      exact List.mem_cons_self _ _
    · simp only [pyGet?, if_neg h0] at h
      exact List.mem_cons_of_mem _ (ih h)

/-- C1: for every route with a non-empty parameter mapping and every
payload containing all mapped payload fields, `_build_call_kwargs`
produces exactly the union of the route's constant parameters and the
mapped (target-parameter, payload-value) pairs — the pairs are inserted
after the constants, so on a key collision the mapped value wins, as the
lookup characterisation in the second conjunct shows. -/
theorem build_call_kwargs_mapping_union (route : RouteConfig)
    (payload : Payload) (data : PyDict Value)
    (hpd : payloadData payload = .ok data)
    (hne : route.parameter_mapping.isEmpty = false)
    (hnd : (pyKeys route.parameter_mapping).Nodup)
    (hall : ∀ pf ∈ route.parameter_mapping, pyContains data pf.2 = true) :
    build_call_kwargs route payload =
      .ok (pyUpdate route.constant_parameters
        (mappedPairs data route.parameter_mapping)) ∧
    ∀ k, pyGet? (pyUpdate route.constant_parameters
        (mappedPairs data route.parameter_mapping)) k =
      match pyGet? route.parameter_mapping k with
      | some f => pyGet? data f
      | none => pyGet? route.constant_parameters k := by
  constructor
  · have hm1 : (mappingLoop data route.parameter_mapping
        route.constant_parameters []).1 = [] := by
      rw [mappingLoop_missing, missingFields_eq_nil data _ hall]
      rfl
    have hm2 := mappingLoop_kwargs_of_all_present data route.parameter_mapping
      route.constant_parameters hall
    simp [build_call_kwargs, hpd, hne, hm1, hm2]
  · intro k
    have hndm : (pyKeys (mappedPairs data route.parameter_mapping)).Nodup := by
      rw [pyKeys_mappedPairs data _ hall]
      exact hnd
    rw [pyGet?_update _ _ k hndm, pyGet?_mappedPairs data _ k hall]
    cases hmk : pyGet? route.parameter_mapping k with
    | none => simp
    | some f =>
      have hc := hall (k, f) (pyGet?_mem _ _ _ hmk)
      obtain ⟨v, hv⟩ := Option.isSome_iff_exists.mp hc
      simp [hv]

/-- C1 witness: constants bind "input" and "temperature", the mapping binds
"input" from the payload; the mapped value overrides the constant and the
untouched constant survives. -/
theorem build_call_kwargs_mapping_union_witness :
    build_call_kwargs
        (mkRoute [("input", "input")]
          [("input", Value.vStr "const"), ("temperature", Value.vInt 1)])
        (.value (.vDict [("input", Value.vStr "hi")])) =
      .ok [("input", Value.vStr "hi"), ("temperature", Value.vInt 1)] := by
  have h := (build_call_kwargs_mapping_union
    (mkRoute [("input", "input")]
      [("input", Value.vStr "const"), ("temperature", Value.vInt 1)])
    (.value (.vDict [("input", Value.vStr "hi")]))
    [("input", Value.vStr "hi")] rfl rfl (by decide) (by decide)).1
  exact h.trans (by rfl)

/-- C3: when the mapping requests at least one payload field the payload
lacks, `_build_call_kwargs` raises 422 with a detail listing every missing
field (in mapping order), and the handler fails the same way for every
agent — the agent method is never invoked. -/
theorem build_call_kwargs_missing_rejected (route : RouteConfig)
    (payload : Payload) (data : PyDict Value)
    (hpd : payloadData payload = .ok data)
    (hne : route.parameter_mapping.isEmpty = false)
    (hmiss : missingFields data route.parameter_mapping ≠ []) :
    build_call_kwargs route payload =
      .error ⟨422, missingDetail (missingFields data route.parameter_mapping)⟩ ∧
    ∀ (agent : PyDict Value → Value) (modelCls : Option (Value → PyDict Value)),
      handler_scalar route payload agent modelCls =
        .error ⟨422, missingDetail (missingFields data route.parameter_mapping)⟩ := by
  have hm1 := mappingLoop_missing data route.parameter_mapping
    route.constant_parameters []
  have hie : (missingFields data route.parameter_mapping).isEmpty = false := by
    cases hm : missingFields data route.parameter_mapping with
    | nil => exact absurd hm hmiss
    | cons a t => rfl
  have hb : build_call_kwargs route payload =
      .error ⟨422, missingDetail (missingFields data route.parameter_mapping)⟩ := by
    simp [build_call_kwargs, hpd, hne, hm1, hie]
  exact ⟨hb, fun agent modelCls => by simp [handler_scalar, hb]⟩

/-- C3 witness: the spec's own example — mapping `input → input` and
`conversation → conversation`, payload holding only `conversation`; the
handler 422s reporting exactly the single missing field `input`, whatever
the agent is. -/
theorem build_call_kwargs_missing_rejected_witness :
    handler_scalar
        (mkRoute [("input", "input"), ("conversation", "conversation")] [])
        (.value (.vDict [("conversation", Value.vList [])]))
        (fun _ => Value.vNull) none =
      .error ⟨422, "Missing required payload fields: input"⟩ := by
  have h := (build_call_kwargs_missing_rejected
    (mkRoute [("input", "input"), ("conversation", "conversation")] [])
    (.value (.vDict [("conversation", Value.vList [])]))
    [("conversation", Value.vList [])] rfl rfl (by decide)).2
    (fun _ => Value.vNull) none
  exact h.trans (by rfl)

/-- C4: with an empty parameter mapping and empty constants the mapper is
full pass-through — the call arguments are the payload itself. -/
theorem build_call_kwargs_pass_through (route : RouteConfig)
    (payload : Payload) (data : PyDict Value)
    (hpd : payloadData payload = .ok data)
    (hm : route.parameter_mapping = [])
    (hc : route.constant_parameters = [])
    (hnd : (pyKeys data).Nodup) :
    build_call_kwargs route payload = .ok data := by
  simp [build_call_kwargs, hpd, hm, hc, pyUpdate_nil_left data hnd]

/-- C4 witness: the spec's example — payload `a ↦ 1, b ↦ 2` with no
mapping and no constants comes back exactly as the call arguments. -/
theorem build_call_kwargs_pass_through_witness :
    build_call_kwargs (mkRoute [] [])
        (.value (.vDict [("a", Value.vInt 1), ("b", Value.vInt 2)])) =
      .ok [("a", Value.vInt 1), ("b", Value.vInt 2)] :=
  build_call_kwargs_pass_through (mkRoute [] [])
    (.value (.vDict [("a", Value.vInt 1), ("b", Value.vInt 2)]))
    [("a", Value.vInt 1), ("b", Value.vInt 2)] rfl rfl rfl (by decide)

/-- C10: in pass-through mode (empty mapping) the payload is merged with
`kwargs.update(data)` after the constants, so a payload field with the
name of a constant parameter overrides that constant. -/
theorem build_call_kwargs_pass_through_override (route : RouteConfig)
    (payload : Payload) (data : PyDict Value)
    (hpd : payloadData payload = .ok data)
    (hm : route.parameter_mapping = [])
    (hnd : (pyKeys data).Nodup) :
    build_call_kwargs route payload =
      .ok (pyUpdate route.constant_parameters data) ∧
    ∀ k, pyContains data k = true →
      pyGet? (pyUpdate route.constant_parameters data) k = pyGet? data k := by
  constructor
  · simp [build_call_kwargs, hpd, hm]
  · intro k hk
    obtain ⟨v, hv⟩ := Option.isSome_iff_exists.mp hk
    rw [pyGet?_update data _ k hnd, hv]

/-- C10 witness: constant `input ↦ "const"` is overridden by payload field
`input ↦ "user"`; the constant does not reach the agent unchanged. -/
theorem build_call_kwargs_pass_through_override_witness :
    build_call_kwargs (mkRoute [] [("input", Value.vStr "const")])
        (.value (.vDict [("input", Value.vStr "user")])) =
      .ok [("input", Value.vStr "user")] ∧
    pyGet? (pyUpdate [("input", Value.vStr "const")]
        [("input", Value.vStr "user")]) "input" =
      some (Value.vStr "user") := by
  have h := build_call_kwargs_pass_through_override
    (mkRoute [] [("input", Value.vStr "const")])
    (.value (.vDict [("input", Value.vStr "user")]))
    [("input", Value.vStr "user")] rfl rfl (by decide)
  exact ⟨h.1.trans (by rfl), (h.2 "input" (by decide)).trans (by rfl)⟩

/-- C9: a decoded payload that is present but neither a dict nor a
schema-model object is rejected with 400 "Unsupported payload type", and
the handler fails that way for every agent — before any invocation. -/
theorem non_dict_payload_rejected (route : RouteConfig) (v : Value)
    (hv : ∀ d, v ≠ .vDict d) :
    build_call_kwargs route (.value v) =
      .error ⟨400, "Unsupported payload type"⟩ ∧
    ∀ (agent : PyDict Value → Value) (modelCls : Option (Value → PyDict Value)),
      handler_scalar route (.value v) agent modelCls =
        .error ⟨400, "Unsupported payload type"⟩ := by
  have hp : payloadData (.value v) = .error ⟨400, "Unsupported payload type"⟩ := by
    cases v
    case vDict fields => exact absurd rfl (hv fields)
    all_goals rfl
  have hb : build_call_kwargs route (.value v) =
      .error ⟨400, "Unsupported payload type"⟩ := by
    simp [build_call_kwargs, hp]
  exact ⟨hb, fun agent modelCls => by simp [handler_scalar, hb]⟩

/-- C9 witness: a JSON array payload is rejected with 400 before the agent
runs. -/
theorem non_dict_payload_rejected_witness :
    handler_scalar (mkRoute [] []) (.value (Value.vList []))
        (fun _ => Value.vNull) none =
      .error ⟨400, "Unsupported payload type"⟩ :=
  (non_dict_payload_rejected (mkRoute [] []) (Value.vList [])
    (fun _ h => Value.noConfusion h)).2 (fun _ => Value.vNull) none

/-- C2: a stream source yielding "a" then "b" produces exactly the frames
`data: {"data": "a"}`, `data: {"data": "b"}`, then the terminal sentinel,
in order (sync or async); a source yielding zero chunks produces exactly
the terminal sentinel. -/
theorem stream_framing_exact :
    handler_stream (.iterRes false [.plain (.vStr "a"), .plain (.vStr "b")]) =
      .ok (some ["data: \x7b\"data\": \"a\"\x7d\n\n",
        "data: \x7b\"data\": \"b\"\x7d\n\n",
        "data: \x7b\"event\": \"end\"\x7d\n\n"]) ∧
    handler_stream (.iterRes true [.plain (.vStr "a"), .plain (.vStr "b")]) =
      .ok (some ["data: \x7b\"data\": \"a\"\x7d\n\n",
        "data: \x7b\"data\": \"b\"\x7d\n\n",
        "data: \x7b\"event\": \"end\"\x7d\n\n"]) ∧
    handler_stream (.iterRes false []) =
      .ok (some ["data: \x7b\"event\": \"end\"\x7d\n\n"]) ∧
    handler_stream (.iterRes true []) =
      .ok (some ["data: \x7b\"event\": \"end\"\x7d\n\n"]) :=
  ⟨rfl, rfl, rfl, rfl⟩

/-- C6: a stream-flagged route treats a plain string result (and a bytes
result) as the one-item sequence `[result]`, streams any sync or async
iterable as-is in its native order, and rejects any other shape with a
500 whose detail is the source's message, emitting no frames. -/
theorem stream_result_classification :
    (∀ s, classifyStream (.strRes s) = .ok [.plain (.vStr s)]) ∧
    (∀ bs, classifyStream (.bytesRes bs) = .ok [.bytesItem bs]) ∧
    (∀ isAsync items, classifyStream (.iterRes isAsync items) = .ok items) ∧
    handler_stream .otherRes =
      .error ⟨500, "Stream routes must return an iterable or async iterable"⟩ :=
  ⟨fun _ => rfl, fun _ => rfl, fun _ _ => rfl, rfl⟩

/-- C5: a non-stream result is wrapped exactly once under the declared
envelope key — `{envelope_key: canonical_result}` with a declared key,
the canonical result alone without one; with a declared response model
the canonical result is the validated dump, and the same single wrap
applies. -/
theorem response_envelope_wraps_once (route : RouteConfig) (result : Value) :
    (∀ k, route.response_envelope = some k →
      apply_response_model route none result = .vDict [(k, result)]) ∧
    (route.response_envelope = none →
      apply_response_model route none result = result) ∧
    (∀ validate k, route.response_envelope = some k →
      apply_response_model route (some validate) result =
        .vDict [(k, .vDict (validate result))]) ∧
    (∀ validate, route.response_envelope = none →
      apply_response_model route (some validate) result =
        .vDict (validate result)) := by
  refine ⟨?_, ?_, ?_, ?_⟩ <;> intros <;>
    simp_all [apply_response_model, wrap_non_model_response]

/-- C5 witness: agent result `{"output": "x"}` with envelope key "result"
produces exactly `{"result": {"output": "x"}}`. -/
theorem response_envelope_wraps_once_witness :
    apply_response_model
        { mkRoute [] [] with response_envelope := some "result" } none
        (.vDict [("output", Value.vStr "x")]) =
      .vDict [("result", .vDict [("output", Value.vStr "x")])] :=
  (response_envelope_wraps_once
    { mkRoute [] [] with response_envelope := some "result" }
    (.vDict [("output", Value.vStr "x")])).1 "result" rfl

/-- An agent whose "invoke" attribute exists but is a plain int — not
callable. `getattr(agent, "invoke", None)` returns it, not None. -/
def nonCallableAgent : Agent :=
  fun n => if n = "invoke" then some (.nonCallable (.vInt 42)) else none

/-- C7 counterexample: binding a route whose target names a non-callable
attribute does NOT raise at registration time — `_add_route` only checks
`getattr(..., None) is None`, so the non-callable int is accepted and the
failure is deferred to request time, contrary to the claim. -/
theorem add_route_non_callable_accepted :
    add_route_check nonCallableAgent (mkRoute [] []) =
      .ok (.nonCallable (.vInt 42)) := rfl

/-- C7 (amended): registration fails fast exactly when
`getattr(agent, agent_method, None)` returns None — the attribute is
absent (or bound to None); an existing non-callable attribute is accepted
at registration time. -/
theorem add_route_check_fails_iff_absent (agent : Agent) (route : RouteConfig) :
    (agent route.agent_method = none →
      add_route_check agent route =
        .error ("Configured agent method '" ++ route.agent_method ++
          "' not found on agent")) ∧
    (∀ a, agent route.agent_method = some a →
      add_route_check agent route = .ok a) := by
  constructor
  · intro h
    simp [add_route_check, h]
  · intro a h
    simp [add_route_check, h]

/-- C7 witness: an agent with no attributes at all fails registration of a
route targeting "invoke" with the AttributeError message. -/
theorem add_route_check_fails_iff_absent_witness :
    add_route_check (fun _ => none) (mkRoute [] []) =
      .error "Configured agent method 'invoke' not found on agent" := by
  have h := (add_route_check_fails_iff_absent (fun _ => none) (mkRoute [] [])).1 rfl
  exact h.trans (by rfl)

theorem getD_append_left {α : Type} (l l' : List α) (i : Nat) (d : α)
    (h : i < l.length) : (l ++ l').getD i d = l.getD i d := by
  induction l generalizing i with
  | nil => simp at h
  | cons a t ih =>
    cases i with
    | zero => rfl
    | succ n =>
      simp only [List.cons_append, List.getD_cons_succ]
      exact ih n (Nat.lt_of_succ_lt_succ (by simpa using h))

theorem getD_append_length {α : Type} (l : List α) (x : α) (d : α) :
    (l ++ [x]).getD l.length d = x := by
  induction l with
  | nil => rfl
  | cons a t ih =>
    simpa only [List.cons_append, List.length_cons, List.getD_cons_succ] using ih

theorem getD_set_ne {α : Type} (l : List α) (i j : Nat) (x d : α)
    (h : j ≠ i) : (l.set i x).getD j d = l.getD j d := by
  induction l generalizing i j with
  | nil => rfl
  | cons a t ih =>
    cases i with
    | zero =>
      cases j with
      | zero => exact absurd rfl h
      | succ m => rfl
    | succ n =>
      cases j with
      | zero => rfl
      | succ m =>
        simp only [List.set_cons_succ, List.getD_cons_succ]
        exact ih n m (fun hh => h (by rw [hh]))

theorem getD_set_self {α : Type} (l : List α) (i : Nat) (x d : α)
    (h : i < l.length) : (l.set i x).getD i d = x := by
  induction l generalizing i with
  | nil => simp at h
  | cons a t ih =>
    cases i with
    | zero => rfl
    | succ n =>
      simp only [List.set_cons_succ, List.getD_cons_succ]
      exact ih n (Nat.lt_of_succ_lt_succ (by simpa using h))

/-- C8: `_build_call_kwargs` never writes through the route's or the
payload's references: every dict that existed before the call — in
particular the route's `constant_parameters` (and the mapping, which is
only ever read) — is unchanged in the store afterwards, and the produced
kwargs dict is exactly the pure function of the route's dicts and the
payload, so equal payloads give equal call arguments on every request. -/
theorem build_call_kwargs_store_frame (σ : Store) (mapping : PyDict String)
    (constRef dataRef : Nat) (hd : dataRef < σ.length) :
    (∀ r, r < σ.length →
      storeGet (build_call_kwargs_store σ mapping constRef dataRef).1 r =
        storeGet σ r) ∧
    Except.map
        (fun r => storeGet (build_call_kwargs_store σ mapping constRef dataRef).1 r)
        (build_call_kwargs_store σ mapping constRef dataRef).2 =
      build_call_kwargs (mkRoute mapping (storeGet σ constRef))
        (.value (.vDict (storeGet σ dataRef))) := by
  have hf1 : ∀ (X : PyDict Value) r, r < σ.length →
      storeGet ((σ ++ [storeGet σ constRef]).set σ.length X) r = storeGet σ r := by
    intro X r hr
    unfold storeGet
    rw [getD_set_ne _ _ _ _ _ (Nat.ne_of_lt hr), getD_append_left _ _ _ _ hr]
  have hf2 : ∀ (X : PyDict Value),
      storeGet ((σ ++ [storeGet σ constRef]).set σ.length X) σ.length = X := by
    intro X
    unfold storeGet
    exact getD_set_self _ _ _ _ (by simp)
  have hdata : storeGet (σ ++ [storeGet σ constRef]) dataRef = storeGet σ dataRef := by
    unfold storeGet
    exact getD_append_left _ _ _ _ hd
  have hcst : storeGet (σ ++ [storeGet σ constRef]) σ.length = storeGet σ constRef := by
    unfold storeGet
    exact getD_append_length _ _ _
  constructor
  · intro r hr
    simp only [build_call_kwargs_store]
    split
    · exact hf1 _ r hr
    · split
      · exact hf1 _ r hr
      · exact hf1 _ r hr
  · simp only [build_call_kwargs_store, build_call_kwargs, payloadData, mkRoute,
      hdata, hcst]
    by_cases hm : mapping.isEmpty
    · simp only [if_pos hm, Except.map, hf2]
    · simp only [if_neg hm]
      by_cases hmi : (mappingLoop (storeGet σ dataRef) mapping
          (storeGet σ constRef) []).1.isEmpty
      · simp only [if_pos hmi, Except.map, hf2]
      · simp only [if_neg hmi, Except.map]

/-- C8 witness: with the route's constants at address 0 and the payload at
address 1, the mapper leaves both addresses unchanged. -/
theorem build_call_kwargs_store_frame_witness :
    storeGet (build_call_kwargs_store
        [[("c", Value.vInt 1)], [("a", Value.vInt 2)]] [("p", "a")] 0 1).1 0 =
      [("c", Value.vInt 1)] ∧
    storeGet (build_call_kwargs_store
        [[("c", Value.vInt 1)], [("a", Value.vInt 2)]] [("p", "a")] 0 1).1 1 =
      [("a", Value.vInt 2)] := by
  have h := (build_call_kwargs_store_frame
    [[("c", Value.vInt 1)], [("a", Value.vInt 2)]] [("p", "a")] 0 1
    (by decide)).1
  exact ⟨(h 0 (by decide)).trans (by rfl), (h 1 (by decide)).trans (by rfl)⟩

end AgentApi
